import Mathlib

/-!
# Verification of `wend`: deferred path expressions with late binding

Shallow embedding of `src/wend/__init__.py`.  The library builds path
expression trees (`PathExpr`) symbolically and resolves them later against a
binding map.  The Python code delegates concrete path arithmetic to
`pathlib.PurePosixPath`; that standard-library behaviour is embedded here as
`PyPath` (a root flag plus a list of components, parsing dropping empty and
`"."` components, exactly as pathlib's `_parse_path` does).

Python exceptions are embedded as `Except`: operations of the library that can
raise return `Except` values, with an error constructor per Python exception
kind that can occur.  The per-`resolve`-call memoization cache of the source
(keyed on object identity) is elided: it only avoids recomputation and cannot
change any returned value, since every node evaluates to the same result each
time it is visited within one call.
-/

namespace Wend

instance {ε α : Type} [DecidableEq ε] [DecidableEq α] : DecidableEq (Except ε α) :=
  fun x y =>
  match x, y with
  | .ok a, .ok b =>
    if h : a = b then .isTrue (by rw [h]) else .isFalse (by simp [h])
  | .ok _, .error _ => .isFalse (by simp)
  | .error _, .ok _ => .isFalse (by simp)
  | .error a, .error b =>
    if h : a = b then .isTrue (by rw [h]) else .isFalse (by simp [h])

/-! ## The pathlib model -/

/-- Split a character list on `'/'`, keeping empty chunks.
`acc` holds the characters of the current chunk, reversed. -/
def splitSlashAux (acc : List Char) : List Char → List (List Char)
  | [] => [acc.reverse]
  | c :: cs =>
    if c = '/' then acc.reverse :: splitSlashAux [] cs
    else splitSlashAux (c :: acc) cs

/-- Components of a posix path string: split on `'/'`, then drop empty and
`"."` chunks, as pathlib's `_parse_path` does. -/
def pathComponents (s : String) : List String :=
  ((splitSlashAux [] s.toList).map List.asString).filter
    (fun c => !(c == "") && !(c == "."))

/-- Model of `pathlib.PurePosixPath`: a root flag plus the component list
(pathlib's `_tail`).  The double-slash root quirk of posix paths is not
modelled; no input of this development uses it. -/
structure PyPath where
  absolute : Bool
  parts : List String
  deriving DecidableEq, Repr

/-- `pathlib.PurePosixPath(s)`: parse a string. -/
def PyPath.parse (s : String) : PyPath :=
  { absolute := s.toList.head? = some '/', parts := pathComponents s }

/-- `pathlib`'s `/` operator on two parsed paths: an absolute right operand
replaces the left entirely, otherwise the component lists concatenate. -/
def PyPath.div (l r : PyPath) : PyPath :=
  if r.absolute then r else { absolute := l.absolute, parts := l.parts ++ r.parts }

/-- `pathlib`'s `.parent`: drop the last component; the parent of a root or
empty path is itself. -/
def PyPath.parent (p : PyPath) : PyPath :=
  if p.parts = [] then p else { absolute := p.absolute, parts := p.parts.dropLast }

/-- `pathlib`'s `.name`: the final component, or `""` if there is none. -/
def PyPath.name (p : PyPath) : String :=
  (p.parts.getLast?).getD ""

/-- Index of the last `'.'` in a character list, if any. -/
def lastDotIdx : List Char → Option Nat
  | [] => none
  | c :: cs =>
    match lastDotIdx cs with
    | some i => some (i + 1)
    | none => if c = '.' then some 0 else none

/-- `pathlib`'s `.suffix` computed from a name: the substring from the last
dot, provided that dot is neither the first nor the last character. -/
def nameSuffix (name : String) : String :=
  match lastDotIdx name.toList with
  | none => ""
  | some i =>
    if 0 < i ∧ i < name.toList.length - 1 then (name.toList.drop i).asString else ""

/-- `pathlib`'s `.stem` computed from a name: the name with `nameSuffix`
removed. -/
def nameStem (name : String) : String :=
  match lastDotIdx name.toList with
  | none => name
  | some i =>
    if 0 < i ∧ i < name.toList.length - 1 then (name.toList.take i).asString else name

/-- `pathlib`'s `.with_name`: replace the final component.  Raises
`ValueError` (modelled as `Except.error`) on an invalid new name or when the
path has no final component. -/
def PyPath.withName (p : PyPath) (name : String) : Except String PyPath :=
  if name = "" ∨ name.toList.contains '/' ∨ name = "." then
    .error ("Invalid name " ++ name)
  else if p.parts = [] then
    .error "path has an empty name"
  else
    .ok { absolute := p.absolute, parts := p.parts.dropLast ++ [name] }

/-- `pathlib`'s `.with_suffix`: replace (or, on an empty suffix, remove) the
suffix of the final component.  Raises `ValueError` (modelled as
`Except.error`) on a suffix containing a separator, a suffix that is nonempty
without a leading dot or is exactly `"."`, or a path with no final
component. -/
def PyPath.withSuffix (p : PyPath) (suffix : String) : Except String PyPath :=
  if suffix.toList.contains '/' then
    .error ("Invalid suffix " ++ suffix)
  else if (suffix ≠ "" ∧ suffix.toList.head? ≠ some '.') ∨ suffix = "." then
    .error ("Invalid suffix " ++ suffix)
  else if p.name = "" then
    .error "path has an empty name"
  else
    .ok { absolute := p.absolute
          parts := p.parts.dropLast ++ [nameStem p.name ++ suffix] }

/-! ## Values and bindings -/

/-- A bindable Python value as used with this library: a string or an
integer.  (`resolve` accepts `Any`; these are the kinds its call sites and
tests exercise.) -/
inductive PyVal where
  | str (s : String)
  | int (n : Int)
  deriving DecidableEq, Repr

/-- Python `str()` of a bindable value. -/
def PyVal.pyStr : PyVal → String
  | .str s => s
  | .int n => if n < 0 then "-" ++ n.natAbs.repr else n.natAbs.repr

/-- Left-pad a string with a fill character to the given width. -/
def leftPad (fill : Char) (width : Nat) (s : String) : String :=
  (List.replicate (width - s.toList.length) fill).asString ++ s

/-- Numeric value of a digit-character list (the width field of a format
specifier). -/
def digitsToNat (cs : List Char) : Nat :=
  cs.foldl (fun acc c => acc * 10 + (c.toNat - 48)) 0

/-- Model of Python's `format(value, spec)` restricted to the specifier forms
this library's templates use: the empty specifier (plain `str` conversion) and
integer specifiers `d` / `0Nd` / `Nd` (decimal, optionally padded).  Any other
specifier is modelled as the formatting failure that `format` raises, which
`resolve` passes through untranslated. -/
def pyFormat (v : PyVal) (spec : String) : Except String String :=
  if spec = "" then .ok v.pyStr
  else
    match v with
    | .str _ => .error ("Unknown format code for str: " ++ spec)
    | .int n =>
      match spec.toList.dropLast, spec.toList.getLast? with
      | body, some 'd' =>
        if body.all Char.isDigit then
          let width := digitsToNat body
          if body.head? = some '0' then
            -- zero padding goes after the sign
            if n < 0 then
              .ok ("-" ++ leftPad '0' (width - 1) n.natAbs.repr)
            else
              .ok (leftPad '0' width n.natAbs.repr)
          else
            .ok (leftPad ' ' width (PyVal.int n).pyStr)
        else .error ("Invalid format spec: " ++ spec)
      | _, _ => .error ("Invalid format spec: " ++ spec)

/-- Bindings: the `dict[str, Any]` passed to `resolve`, as an association
list (keys unique in every use of the library). -/
abbrev Bindings := List (String × PyVal)

/-- The key set of a binding map (`set(bindings.keys())`). -/
def bindKeys (b : Bindings) : Finset String :=
  (b.map Prod.fst).toFinset

/-! ## The expression tree -/

/-- `Param`: a named late-binding slot. -/
structure Param where
  name : String
  deriving DecidableEq, Repr

/-- The payload of a `LiteralExpr`: the Python field has type `str | Path`. -/
inductive StrOrPath where
  | str (s : String)
  | path (p : PyPath)
  deriving DecidableEq, Repr

/-- Python `Path(value)` on a `str | Path` value (identity on paths). -/
def StrOrPath.toPath : StrOrPath → PyPath
  | .str s => PyPath.parse s
  | .path p => p

/-- A value carried by a template interpolation: a `Param` or a plain value
(Python stores `Any`; the library distinguishes exactly these two cases). -/
inductive TValue where
  | param (p : Param)
  | val (v : PyVal)
  deriving DecidableEq, Repr

/-- One item of a t-string template: a literal string fragment or an
interpolation with its format specifier. -/
inductive TItem where
  | str (s : String)
  | interp (value : TValue) (formatSpec : String)
  deriving DecidableEq, Repr

/-- The `PathExpr` variants of the source, as a closed sum: `LiteralExpr`,
`ParamExpr`, `TemplateExpr`, `JoinExpr`, `ParentExpr`, `WithNameExpr`,
`WithSuffixExpr`.  (The cached `_params` field of `TemplateExpr` is
recomputed on demand here; it is set once from the template and never
mutated.) -/
inductive PathExpr where
  | literal (value : StrOrPath)
  | paramRef (param : Param)
  | template (items : List TItem)
  | join (left right : PathExpr)
  | parentOf (child : PathExpr)
  | withNameE (base : PathExpr) (name : String)
  | withSuffixE (base : PathExpr) (suffix : String)
  deriving DecidableEq, Repr

/-- `TemplateExpr.__post_init__` / `required_params`: the set of `Param`
names among the interpolations. -/
def templateParams : List TItem → Finset String
  | [] => ∅
  | .str _ :: rest => templateParams rest
  | .interp (.param p) _ :: rest => insert p.name (templateParams rest)
  | .interp (.val _) _ :: rest => templateParams rest

/-- `required_params`: the structural fold over the tree, one equation per
variant's method in the source. -/
def PathExpr.required_params : PathExpr → Finset String
  | .literal _ => ∅
  | .paramRef p => {p.name}
  | .template items => templateParams items
  | .join l r => l.required_params ∪ r.required_params
  | .parentOf c => c.required_params
  | .withNameE b _ => b.required_params
  | .withSuffixE b _ => b.required_params

/-! ## Smart constructors -/

/-- `JoinExpr.create`: fold `Literal / Literal` into a single `Literal`
holding the path-join of the two values; otherwise build a `Join` node. -/
def JoinExpr.create : PathExpr → PathExpr → PathExpr
  | .literal l, .literal r => .literal (.path (l.toPath.div r.toPath))
  | l, r => .join l r

/-- `ParentExpr.create`: `parent (a / b) = a` when `b` is a single component
(Literal, ParamRef or Template); the parent of a `Literal` folds; everything
else is wrapped in a `Parent` node. -/
def ParentExpr.create : PathExpr → PathExpr
  | .join l (.literal _) => l
  | .join l (.paramRef _) => l
  | .join l (.template _) => l
  | .literal v => .literal (.path v.toPath.parent)
  | c => .parentOf c

/-- `WithSuffixExpr.create`: collapse a suffix chain
(`base.with_suffix(a).with_suffix(b)` keeps only `b`); fold a `Literal` base
through `pathlib`'s `with_suffix`, which can raise; otherwise wrap. -/
def WithSuffixExpr.create (base : PathExpr) (suffix : String) :
    Except String PathExpr :=
  match base with
  | .withSuffixE b _ => .ok (.withSuffixE b suffix)
  | .literal v =>
    match v.toPath.withSuffix suffix with
    | .ok p => .ok (.literal (.path p))
    | .error msg => .error msg
  | b => .ok (.withSuffixE b suffix)

/-! ## Public construction operators -/

/-- `P`: literal path expression constructor. -/
def P (s : String) : PathExpr := .literal (.str s)

/-- `T`: template path expression constructor. -/
def T (items : List TItem) : PathExpr := .template items

/-- `PathExpr.__truediv__` with a `PathExpr` right operand. -/
def PathExpr.div (a b : PathExpr) : PathExpr := JoinExpr.create a b

/-- `PathExpr.__truediv__` with a `str` right operand (lifted to Literal). -/
def PathExpr.divS (a : PathExpr) (s : String) : PathExpr :=
  JoinExpr.create a (.literal (.str s))

/-- `PathExpr.__truediv__` with a `Param` right operand (lifted to
ParamRef). -/
def PathExpr.divP (a : PathExpr) (p : Param) : PathExpr :=
  JoinExpr.create a (.paramRef p)

/-- `PathExpr.__rtruediv__`: a `str` left operand, lifted to Literal. -/
def PathExpr.rdivS (s : String) (a : PathExpr) : PathExpr :=
  JoinExpr.create (.literal (.str s)) a

/-- `Param.__truediv__` with a `str` right operand. -/
def Param.divS (p : Param) (s : String) : PathExpr :=
  (PathExpr.paramRef p).divS s

/-- `Param.__truediv__` with a `Param` right operand. -/
def Param.divP (p q : Param) : PathExpr :=
  (PathExpr.paramRef p).divP q

/-- `Param.__truediv__` with a `PathExpr` right operand. -/
def Param.divE (p : Param) (e : PathExpr) : PathExpr :=
  (PathExpr.paramRef p).div e

/-- The `.parent` property. -/
def PathExpr.parent (e : PathExpr) : PathExpr := ParentExpr.create e

/-- The `.with_name(name)` method: plain construction, no simplification. -/
def PathExpr.with_name (e : PathExpr) (name : String) : PathExpr :=
  .withNameE e name

/-- The `.with_suffix(suffix)` method. -/
def PathExpr.with_suffix (e : PathExpr) (suffix : String) :
    Except String PathExpr :=
  WithSuffixExpr.create e suffix

/-! ## Resolution -/

/-- The failure kinds `resolve` can produce, one constructor per Python
exception source: the `Missing bindings` `ValueError` of the pre-check, a
`KeyError` from a dict lookup, a `TypeError` from `Path()` on a non-string,
a `ValueError` raised inside `pathlib`'s `with_name`/`with_suffix`, and a
formatting failure passed through from `format()`. -/
inductive ResolveErr where
  | missingBindings (names : Finset String)
  | keyError (name : String)
  | typeError (msg : String)
  | valueError (msg : String)
  | formatError (msg : String)
  deriving DecidableEq

/-- `Path(bindings[param.name])`: coerce a bound value to a path.  `Path()`
raises `TypeError` on a non-string argument (e.g. an `int`). -/
def coercePath : PyVal → Except ResolveErr PyPath
  | .str s => .ok (PyPath.parse s)
  | .int _ => .error (.typeError "argument should be a str or an os.PathLike object")

/-- The value of one interpolation before formatting: a `Param` is looked up
in the bindings (a `KeyError` if absent), any other value passes through. -/
def interpValue (b : Bindings) : TValue → Except ResolveErr PyVal
  | .param p =>
    match b.lookup p.name with
    | some v => .ok v
    | none => .error (.keyError p.name)
  | .val v => .ok v

/-- The interpolation loop of `TemplateExpr._resolve`: concatenate literal
fragments and formatted interpolation values in order, left to right, the
first failure winning. -/
def resolveItems (b : Bindings) : List TItem → Except ResolveErr String
  | [] => .ok ""
  | .str s :: rest =>
    match resolveItems b rest with
    | .ok tail => .ok (s ++ tail)
    | .error e => .error e
  | .interp tv spec :: rest =>
    match interpValue b tv with
    | .error e => .error e
    | .ok v =>
      match pyFormat v spec with
      | .error msg => .error (.formatError msg)
      | .ok fs =>
        match resolveItems b rest with
        | .ok tail => .ok (fs ++ tail)
        | .error e => .error e

/-- `_resolve`: bottom-up evaluation of the tree against bindings.  The
identity-keyed per-call cache of the source is elided (it only avoids
recomputation; every node yields the same value whenever evaluated in the
same call). -/
def PathExpr.resolveAux (b : Bindings) : PathExpr → Except ResolveErr PyPath
  | .literal v => .ok v.toPath
  | .paramRef p =>
    match b.lookup p.name with
    | some v => coercePath v
    | none => .error (.keyError p.name)
  | .template items =>
    match resolveItems b items with
    | .ok s => .ok (PyPath.parse s)
    | .error e => .error e
  | .join l r =>
    match l.resolveAux b with
    | .error e => .error e
    | .ok lv =>
      match r.resolveAux b with
      | .error e => .error e
      | .ok rv => .ok (lv.div rv)
  | .parentOf c =>
    match c.resolveAux b with
    | .ok cv => .ok cv.parent
    | .error e => .error e
  | .withNameE base name =>
    match base.resolveAux b with
    | .error e => .error e
    | .ok bv =>
      match bv.withName name with
      | .ok p => .ok p
      | .error msg => .error (.valueError msg)
  | .withSuffixE base suffix =>
    match base.resolveAux b with
    | .error e => .error e
    | .ok bv =>
      match bv.withSuffix suffix with
      | .ok p => .ok p
      | .error msg => .error (.valueError msg)

/-- `resolve`: validate that every required parameter is bound, raising
`Missing bindings` with the complete missing set otherwise, then evaluate. -/
def PathExpr.resolve (e : PathExpr) (b : Bindings) : Except ResolveErr PyPath :=
  let missing := e.required_params \ bindKeys b
  if missing = ∅ then e.resolveAux b
  else .error (.missingBindings missing)

/-! ## RelativePath -/

/-- `RelativePath`: a path defined relative to a base. -/
structure RelativePath where
  base : PathExpr
  relative : PathExpr
  deriving DecidableEq, Repr

/-- The `expr` property: `self.base / self.relative`, recomputed on read. -/
def RelativePath.expr (r : RelativePath) : PathExpr :=
  r.base.div r.relative

/-- `rebase`: replace the base, keep the relative part unchanged. -/
def RelativePath.rebase (r : RelativePath) (newBase : PathExpr) : RelativePath :=
  { base := newBase, relative := r.relative }

/-- `RelativePath.resolve` delegates to the joined expression. -/
def RelativePath.resolve (r : RelativePath) (b : Bindings) :
    Except ResolveErr PyPath :=
  r.expr.resolve b

/-- `RelativePath.required_params` delegates to the joined expression. -/
def RelativePath.required_params (r : RelativePath) : Finset String :=
  r.expr.required_params

/-! ## Structural predicates for the canonical-form invariant -/

/-- Is this node a `LiteralExpr`? -/
def PathExpr.isLiteral : PathExpr → Bool
  | .literal _ => true
  | _ => false

/-- Is this node one of the atomic variants (`Literal`, `ParamRef`,
`Template`), i.e. the kinds that `ParentExpr.create` strips from the right
of a join? -/
def PathExpr.isAtomic : PathExpr → Bool
  | .literal _ => true
  | .paramRef _ => true
  | .template _ => true
  | _ => false

/-- Is this node a `WithSuffixExpr`? -/
def PathExpr.isWithSuffix : PathExpr → Bool
  | .withSuffixE _ _ => true
  | _ => false

/-- Is this node a `JoinExpr` whose right child is atomic? -/
def PathExpr.isJoinAtomicRight : PathExpr → Bool
  | .join _ r => r.isAtomic
  | _ => false

/-- The canonical reduced form maintained by the smart constructors: a Join
never has two Literal children, a Parent never wraps a bare Literal nor a
Join whose right child is atomic, and a WithSuffix never has another
WithSuffix nor a bare Literal as its base — recursively at every node. -/
def PathExpr.reduced : PathExpr → Bool
  | .literal _ => true
  | .paramRef _ => true
  | .template _ => true
  | .join l r => l.reduced && r.reduced && !(l.isLiteral && r.isLiteral)
  | .parentOf c => c.reduced && !c.isLiteral && !c.isJoinAtomicRight
  | .withNameE b _ => b.reduced
  | .withSuffixE b _ => b.reduced && !b.isWithSuffix && !b.isLiteral

/-- Expressions reachable through the public construction surface: literal
and template constructors, parameter references, the join operator in all
its overloads, `.parent`, `.with_name`, and `.with_suffix` (when it
succeeds). -/
inductive Constructed : PathExpr → Prop where
  | lit (s : String) : Constructed (P s)
  | pref (p : Param) : Constructed (.paramRef p)
  | templ (items : List TItem) : Constructed (T items)
  | joinE {a b : PathExpr} : Constructed a → Constructed b → Constructed (a.div b)
  | joinS {a : PathExpr} (s : String) : Constructed a → Constructed (a.divS s)
  | joinP {a : PathExpr} (p : Param) : Constructed a → Constructed (a.divP p)
  | rjoinS (s : String) {a : PathExpr} : Constructed a → Constructed (PathExpr.rdivS s a)
  | par {a : PathExpr} : Constructed a → Constructed a.parent
  | named {a : PathExpr} (n : String) : Constructed a → Constructed (a.with_name n)
  | suffixed {a e : PathExpr} (s : String) :
      Constructed a → a.with_suffix s = .ok e → Constructed e

/-! ## Helper lemmas -/

theorem mem_keys_of_lookup {b : Bindings} {n : String} {v : PyVal}
    (h : b.lookup n = some v) : n ∈ bindKeys b := by
  simp only [bindKeys, List.mem_toFinset]
  induction b with
  | nil => simp [List.lookup] at h
  | cons kv rest ih =>
    obtain ⟨k, w⟩ := kv
    simp only [List.lookup] at h
    cases hbk : n == k with
    | true =>
      have hk : n = k := by simpa using hbk
      simp [hk]
    | false =>
      rw [hbk] at h
      simp only [List.map_cons, List.mem_cons]
      exact Or.inr (ih h)

theorem lookup_of_mem_keys {b : Bindings} {n : String}
    (h : n ∈ bindKeys b) : ∃ v, b.lookup n = some v := by
  simp only [bindKeys, List.mem_toFinset] at h
  induction b with
  | nil => simp at h
  | cons kv rest ih =>
    obtain ⟨k, w⟩ := kv
    by_cases hk : n = k
    · subst hk
      exact ⟨w, by simp [List.lookup]⟩
    · simp only [List.map_cons, List.mem_cons] at h
      rcases h with h | h
      · exact absurd h hk
      · obtain ⟨v, hv⟩ := ih h
        have hbk : (n == k) = false := by simp [hk]
        exact ⟨v, by simp [List.lookup, hbk, hv]⟩

theorem interpValue_error_shape {b : Bindings} {tv : TValue} {e : ResolveErr}
    (h : interpValue b tv = .error e) : ∃ n, e = ResolveErr.keyError n := by
  cases tv with
  | param p =>
    cases hl : b.lookup p.name with
    | some v => simp [interpValue, hl] at h
    | none =>
      simp only [interpValue, hl, Except.error.injEq] at h
      exact ⟨p.name, h.symm⟩
  | val v => simp [interpValue] at h

theorem resolveItems_error_shape {b : Bindings} :
    ∀ {items : List TItem} {e : ResolveErr}, resolveItems b items = .error e →
      (∃ n, e = ResolveErr.keyError n) ∨ (∃ m, e = ResolveErr.formatError m) := by
  intro items
  induction items with
  | nil => intro e h; simp [resolveItems] at h
  | cons item rest ih =>
    intro e h
    cases item with
    | str s =>
      cases hr : resolveItems b rest with
      | ok tl => simp [resolveItems, hr] at h
      | error er =>
        simp only [resolveItems, hr, Except.error.injEq] at h
        subst h
        exact ih hr
    | interp tv spec =>
      cases hv : interpValue b tv with
      | error ev =>
        simp only [resolveItems, hv, Except.error.injEq] at h
        subst h
        exact Or.inl (interpValue_error_shape hv)
      | ok v =>
        cases hf : pyFormat v spec with
        | error msg =>
          simp only [resolveItems, hv, hf, Except.error.injEq] at h
          subst h
          exact Or.inr ⟨msg, rfl⟩
        | ok fs =>
          cases hr : resolveItems b rest with
          | error er =>
            simp only [resolveItems, hv, hf, hr, Except.error.injEq] at h
            subst h
            exact ih hr
          | ok tl => simp [resolveItems, hv, hf, hr] at h

theorem resolveAux_error_shape {b : Bindings} :
    ∀ {e : PathExpr} {err : ResolveErr}, e.resolveAux b = .error err →
      (∃ n, err = ResolveErr.keyError n) ∨ (∃ m, err = ResolveErr.formatError m) ∨
      (∃ m, err = ResolveErr.valueError m) ∨ (∃ m, err = ResolveErr.typeError m) := by
  intro e
  induction e with
  | literal v => intro err h; simp [PathExpr.resolveAux] at h
  | paramRef p =>
    intro err h
    cases hl : b.lookup p.name with
    | none =>
      simp only [PathExpr.resolveAux, hl, Except.error.injEq] at h
      exact Or.inl ⟨p.name, h.symm⟩
    | some v =>
      simp only [PathExpr.resolveAux, hl] at h
      cases v with
      | str s => simp [coercePath] at h
      | int n =>
        simp only [coercePath, Except.error.injEq] at h
        exact Or.inr (Or.inr (Or.inr ⟨_, h.symm⟩))
  | template items =>
    intro err h
    cases hr : resolveItems b items with
    | ok s => simp [PathExpr.resolveAux, hr] at h
    | error er =>
      simp only [PathExpr.resolveAux, hr, Except.error.injEq] at h
      subst h
      rcases resolveItems_error_shape hr with hk | hf
      · exact Or.inl hk
      · exact Or.inr (Or.inl hf)
  | join l r ihl ihr =>
    intro err h
    cases hl : l.resolveAux b with
    | error el =>
      simp only [PathExpr.resolveAux, hl, Except.error.injEq] at h
      subst h
      exact ihl hl
    | ok lv =>
      cases hr : r.resolveAux b with
      | error er =>
        simp only [PathExpr.resolveAux, hl, hr, Except.error.injEq] at h
        subst h
        exact ihr hr
      | ok rv => simp [PathExpr.resolveAux, hl, hr] at h
  | parentOf c ihc =>
    intro err h
    cases hc : c.resolveAux b with
    | error ec =>
      simp only [PathExpr.resolveAux, hc, Except.error.injEq] at h
      subst h
      exact ihc hc
    | ok cv => simp [PathExpr.resolveAux, hc] at h
  | withNameE base name ihb =>
    intro err h
    cases hb : base.resolveAux b with
    | error eb =>
      simp only [PathExpr.resolveAux, hb, Except.error.injEq] at h
      subst h
      exact ihb hb
    | ok bv =>
      cases hw : bv.withName name with
      | ok p => simp [PathExpr.resolveAux, hb, hw] at h
      | error msg =>
        simp only [PathExpr.resolveAux, hb, hw, Except.error.injEq] at h
        exact Or.inr (Or.inr (Or.inl ⟨msg, h.symm⟩))
  | withSuffixE base suffix ihb =>
    intro err h
    cases hb : base.resolveAux b with
    | error eb =>
      simp only [PathExpr.resolveAux, hb, Except.error.injEq] at h
      subst h
      exact ihb hb
    | ok bv =>
      cases hw : bv.withSuffix suffix with
      | ok p => simp [PathExpr.resolveAux, hb, hw] at h
      | error msg =>
        simp only [PathExpr.resolveAux, hb, hw, Except.error.injEq] at h
        exact Or.inr (Or.inr (Or.inl ⟨msg, h.symm⟩))

theorem resolveAux_ne_missing (e : PathExpr) (b : Bindings) (s : Finset String) :
    e.resolveAux b ≠ .error (.missingBindings s) := by
  intro h
  rcases resolveAux_error_shape h with ⟨n, hn⟩ | ⟨m, hm⟩ | ⟨m, hm⟩ | ⟨m, hm⟩ <;>
    simp_all

theorem resolve_eq_resolveAux {e : PathExpr} {b : Bindings}
    (hm : e.required_params \ bindKeys b = ∅) : e.resolve b = e.resolveAux b := by
  simp [PathExpr.resolve, hm]

theorem resolve_eq_missing {e : PathExpr} {b : Bindings}
    (hm : e.required_params \ bindKeys b ≠ ∅) :
    e.resolve b = .error (.missingBindings (e.required_params \ bindKeys b)) := by
  simp [PathExpr.resolve, hm]

theorem resolveItems_no_keyError {b : Bindings} :
    ∀ {items : List TItem}, templateParams items ⊆ bindKeys b →
      ∀ (n : String), resolveItems b items ≠ .error (.keyError n) := by
  intro items
  induction items with
  | nil => intro _ n h; simp [resolveItems] at h
  | cons item rest ih =>
    intro hsub n h
    cases item with
    | str s =>
      have hr : templateParams rest ⊆ bindKeys b := by
        simpa [templateParams] using hsub
      cases hrr : resolveItems b rest with
      | ok tl => simp [resolveItems, hrr] at h
      | error er =>
        simp only [resolveItems, hrr, Except.error.injEq] at h
        exact ih hr n (by rw [hrr, h])
    | interp tv spec =>
      cases tv with
      | param p =>
        have hmem : p.name ∈ bindKeys b := by
          apply hsub
          simp [templateParams]
        obtain ⟨v, hv⟩ := lookup_of_mem_keys hmem
        have hiv : interpValue b (.param p) = .ok v := by
          simp [interpValue, hv]
        have hr : templateParams rest ⊆ bindKeys b := by
          refine subset_trans ?_ hsub
          simp [templateParams, Finset.subset_insert]
        cases hf : pyFormat v spec with
        | error msg => simp [resolveItems, hiv, hf] at h
        | ok fs =>
          cases hrr : resolveItems b rest with
          | ok tl => simp [resolveItems, hiv, hf, hrr] at h
          | error er =>
            simp only [resolveItems, hiv, hf, hrr, Except.error.injEq] at h
            exact ih hr n (by rw [hrr, h])
      | val v =>
        have hr : templateParams rest ⊆ bindKeys b := by
          simpa [templateParams] using hsub
        cases hf : pyFormat v spec with
        | error msg => simp [resolveItems, interpValue, hf] at h
        | ok fs =>
          cases hrr : resolveItems b rest with
          | ok tl => simp [resolveItems, interpValue, hf, hrr] at h
          | error er =>
            simp only [resolveItems, interpValue, hf, hrr, Except.error.injEq] at h
            exact ih hr n (by rw [hrr, h])

theorem resolveAux_no_keyError {b : Bindings} :
    ∀ {e : PathExpr}, e.required_params ⊆ bindKeys b →
      ∀ (n : String), e.resolveAux b ≠ .error (.keyError n) := by
  intro e
  induction e with
  | literal v => intro _ n h; simp [PathExpr.resolveAux] at h
  | paramRef p =>
    intro hsub n h
    have hmem : p.name ∈ bindKeys b := by
      apply hsub
      simp [PathExpr.required_params]
    obtain ⟨v, hv⟩ := lookup_of_mem_keys hmem
    cases v with
    | str s => simp [PathExpr.resolveAux, hv, coercePath] at h
    | int m => simp [PathExpr.resolveAux, hv, coercePath] at h
  | template items =>
    intro hsub n h
    have hsub' : templateParams items ⊆ bindKeys b := hsub
    cases hr : resolveItems b items with
    | ok s => simp [PathExpr.resolveAux, hr] at h
    | error er =>
      simp only [PathExpr.resolveAux, hr, Except.error.injEq] at h
      exact resolveItems_no_keyError hsub' n (by rw [hr, h])
  | join l r ihl ihr =>
    intro hsub n h
    have hl' : l.required_params ⊆ bindKeys b :=
      subset_trans Finset.subset_union_left hsub
    have hr' : r.required_params ⊆ bindKeys b :=
      subset_trans Finset.subset_union_right hsub
    cases hl : l.resolveAux b with
    | error el =>
      simp only [PathExpr.resolveAux, hl, Except.error.injEq] at h
      exact ihl hl' n (by rw [hl, h])
    | ok lv =>
      cases hr : r.resolveAux b with
      | error er =>
        simp only [PathExpr.resolveAux, hl, hr, Except.error.injEq] at h
        exact ihr hr' n (by rw [hr, h])
      | ok rv => simp [PathExpr.resolveAux, hl, hr] at h
  | parentOf c ihc =>
    intro hsub n h
    cases hc : c.resolveAux b with
    | error ec =>
      simp only [PathExpr.resolveAux, hc, Except.error.injEq] at h
      exact ihc hsub n (by rw [hc, h])
    | ok cv => simp [PathExpr.resolveAux, hc] at h
  | withNameE base name ihb =>
    intro hsub n h
    cases hb : base.resolveAux b with
    | error eb =>
      simp only [PathExpr.resolveAux, hb, Except.error.injEq] at h
      exact ihb hsub n (by rw [hb, h])
    | ok bv =>
      cases hw : bv.withName name with
      | ok p => simp [PathExpr.resolveAux, hb, hw] at h
      | error msg => simp [PathExpr.resolveAux, hb, hw] at h
  | withSuffixE base suffix ihb =>
    intro hsub n h
    cases hb : base.resolveAux b with
    | error eb =>
      simp only [PathExpr.resolveAux, hb, Except.error.injEq] at h
      exact ihb hsub n (by rw [hb, h])
    | ok bv =>
      cases hw : bv.withSuffix suffix with
      | ok p => simp [PathExpr.resolveAux, hb, hw] at h
      | error msg => simp [PathExpr.resolveAux, hb, hw] at h

theorem resolve_no_keyError (e : PathExpr) (b : Bindings) (n : String) :
    e.resolve b ≠ .error (.keyError n) := by
  by_cases hm : e.required_params \ bindKeys b = ∅
  · rw [resolve_eq_resolveAux hm]
    exact resolveAux_no_keyError (Finset.sdiff_eq_empty_iff_subset.mp hm) n
  · rw [resolve_eq_missing hm]
    simp

/-! ## Claim theorems -/

/-- C1: for every path expression `e` and binding map `b`, `e.resolve b`
fails with a MissingBindings error if and only if
`e.required_params \ bindKeys b` is non-empty, and whenever it does fail that
way the error carries exactly that complete set of missing names. -/
theorem resolve_missingBindings_iff (e : PathExpr) (b : Bindings) :
    ((∃ s, e.resolve b = .error (.missingBindings s)) ↔
        e.required_params \ bindKeys b ≠ ∅)
    ∧ (∀ s, e.resolve b = .error (.missingBindings s) →
        s = e.required_params \ bindKeys b) := by
  by_cases hm : e.required_params \ bindKeys b = ∅
  · refine ⟨⟨fun ⟨s, hs⟩ => ?_, fun h => absurd hm h⟩, fun s hs => ?_⟩
    · rw [resolve_eq_resolveAux hm] at hs
      exact absurd hs (resolveAux_ne_missing e b s)
    · rw [resolve_eq_resolveAux hm] at hs
      exact absurd hs (resolveAux_ne_missing e b s)
  · refine ⟨⟨fun _ => hm, fun _ => ⟨_, resolve_eq_missing hm⟩⟩, fun s hs => ?_⟩
    rw [resolve_eq_missing hm] at hs
    simp only [Except.error.injEq, ResolveErr.missingBindings.injEq] at hs
    exact hs.symm

/-- C1 witness: resolving `root / dataset` with only `root` bound fails with
a MissingBindings error reporting `{"dataset"}`. -/
theorem resolve_missingBindings_iff_witness :
    ∃ s, ((Param.mk "root").divP ⟨"dataset"⟩).resolve [("root", PyVal.str "/data")]
        = .error (.missingBindings s) ∧ s = {"dataset"} := by
  have h := resolve_missingBindings_iff ((Param.mk "root").divP ⟨"dataset"⟩)
    [("root", PyVal.str "/data")]
  obtain ⟨s, hs⟩ := h.1.mpr (by decide)
  refine ⟨s, hs, ?_⟩
  rw [h.2 s hs]
  decide

/-- C2 counterexample: a construction-time operation can fail.
`P("file").with_suffix("txt")` reaches the Literal fold of
`WithSuffixExpr.create`, and the underlying `with_suffix` rejects a suffix
without a leading dot, so the smart constructor raises at construction
time. -/
theorem withSuffix_create_failure_example :
    (P "file").with_suffix "txt" = .error "Invalid suffix txt" := by decide

/-- C2 amended: `Join.create`, `Parent.create`, `WithName` construction and
`required_params` are total (they are plain functions in this embedding),
and `WithSuffix.create` fails exactly when its base is a Literal whose
concrete value is rejected by the underlying `with_suffix` path operation
(invalid suffix or empty name); on every other input it succeeds. -/
theorem withSuffix_create_fails_iff (base : PathExpr) (suffix : String) :
    (∃ msg, WithSuffixExpr.create base suffix = .error msg) ↔
      ∃ v msg, base = PathExpr.literal v ∧
        v.toPath.withSuffix suffix = .error msg := by
  cases base with
  | literal v =>
    cases hw : v.toPath.withSuffix suffix with
    | ok p => simp [WithSuffixExpr.create, hw]
    | error msg => simp [WithSuffixExpr.create, hw]
  | paramRef p => simp [WithSuffixExpr.create]
  | template t => simp [WithSuffixExpr.create]
  | join l r => simp [WithSuffixExpr.create]
  | parentOf c => simp [WithSuffixExpr.create]
  | withNameE a n => simp [WithSuffixExpr.create]
  | withSuffixE a s => simp [WithSuffixExpr.create]

/-- C2 witness: on a non-Literal base the constructor never fails. -/
theorem withSuffix_create_fails_iff_witness :
    ¬ ∃ msg, WithSuffixExpr.create (PathExpr.paramRef ⟨"x"⟩) ".tmp"
        = .error msg := by
  intro hc
  obtain ⟨v, msg, hv, _⟩ :=
    (withSuffix_create_fails_iff (PathExpr.paramRef ⟨"x"⟩) ".tmp").mp hc
  exact PathExpr.noConfusion hv

/-- C3 counterexample: binding an integer to a bare ParamRef does not
resolve; `Path(5)` raises TypeError, so resolution fails rather than
coercing. -/
theorem paramref_int_binding_fails :
    (PathExpr.paramRef ⟨"root"⟩).resolve [("root", PyVal.int 5)]
      = .error (.typeError "argument should be a str or an os.PathLike object") := by
  decide

/-- C3 amended: for every ParamRef expression and every binding map that
binds its parameter name to a string value, resolution succeeds and coerces
the bound string into a concrete path value; integer bindings are only
formatted inside Template interpolations, a bare ParamRef rejects them with
a TypeError. -/
theorem paramref_str_binding_resolves (name s : String) (b : Bindings)
    (h : b.lookup name = some (PyVal.str s)) :
    (PathExpr.paramRef ⟨name⟩).resolve b = .ok (PyPath.parse s) := by
  have hmem : name ∈ bindKeys b := mem_keys_of_lookup h
  have hm : (PathExpr.paramRef ⟨name⟩).required_params \ bindKeys b = ∅ := by
    rw [Finset.sdiff_eq_empty_iff_subset]
    simpa [PathExpr.required_params] using hmem
  rw [resolve_eq_resolveAux hm]
  simp [PathExpr.resolveAux, h, coercePath]

/-- C3 witness: a string binding at a concrete input. -/
theorem paramref_str_binding_resolves_witness :
    (PathExpr.paramRef ⟨"root"⟩).resolve [("root", PyVal.str "/tmp")]
      = .ok (PyPath.parse "/tmp") :=
  paramref_str_binding_resolves "root" "/tmp" _ (by decide)

/-- C4: joining two Literals at construction folds into a single Literal
holding the path-join of the two values, where an absolute right value
replaces the left entirely; in particular `P("/home") / "user" / "data"` is
structurally a Literal and resolves to `/home/user/data`. -/
theorem join_literal_fold :
    (∀ l r : StrOrPath, JoinExpr.create (.literal l) (.literal r)
        = .literal (.path (l.toPath.div r.toPath)))
    ∧ (∀ l r : PyPath, r.absolute = true → l.div r = r)
    ∧ ((P "/home").divS "user" |>.divS "data")
        = .literal (.path (PyPath.parse "/home/user/data"))
    ∧ ((P "/home").divS "user" |>.divS "data").resolve []
        = .ok (PyPath.parse "/home/user/data") := by
  refine ⟨fun l r => rfl, fun l r h => ?_, by decide, by decide⟩
  simp [PyPath.div, h]

/-- C4 witness: an absolute right value replaces the left at a concrete
input. -/
theorem join_literal_fold_witness :
    PyPath.div (PyPath.parse "a") (PyPath.parse "/b") = PyPath.parse "/b" :=
  join_literal_fold.2.1 (PyPath.parse "a") (PyPath.parse "/b") (by decide)

/-- C5: `Parent.create(child)` returns `child.left` when `child` is a Join
with an atomic right side, folds a Literal child to the Literal of its
parent path, and otherwise wraps `child` in a Parent node unchanged; in
particular `(p / "a" / "b").parent` is structurally
`Join(ParamRef(p), Literal("a"))` and resolves with `p = "/x"` to `/x/a`. -/
theorem parent_create_spec :
    (∀ l r : PathExpr, r.isAtomic = true → ParentExpr.create (.join l r) = l)
    ∧ (∀ v, ParentExpr.create (.literal v) = .literal (.path v.toPath.parent))
    ∧ (∀ c : PathExpr, c.isLiteral = false →
        (∀ l r, c = .join l r → r.isAtomic = false) →
        ParentExpr.create c = .parentOf c)
    ∧ ((Param.mk "p").divS "a" |>.divS "b").parent
        = .join (.paramRef ⟨"p"⟩) (.literal (.str "a"))
    ∧ (((Param.mk "p").divS "a" |>.divS "b").parent).resolve [("p", .str "/x")]
        = .ok (PyPath.parse "/x/a") := by
  refine ⟨?_, fun v => rfl, ?_, by decide, by decide⟩
  · intro l r hr
    cases r with
    | literal v => rfl
    | paramRef p => rfl
    | template t => rfl
    | join a b => simp [PathExpr.isAtomic] at hr
    | parentOf a => simp [PathExpr.isAtomic] at hr
    | withNameE a n => simp [PathExpr.isAtomic] at hr
    | withSuffixE a s => simp [PathExpr.isAtomic] at hr
  · intro c hlit hjoin
    cases c with
    | literal v => simp [PathExpr.isLiteral] at hlit
    | paramRef p => rfl
    | template t => rfl
    | join l r =>
      have hra := hjoin l r rfl
      cases r with
      | literal v => simp [PathExpr.isAtomic] at hra
      | paramRef p => simp [PathExpr.isAtomic] at hra
      | template t => simp [PathExpr.isAtomic] at hra
      | join a b => rfl
      | parentOf a => rfl
      | withNameE a n => rfl
      | withSuffixE a s => rfl
    | parentOf a => rfl
    | withNameE a n => rfl
    | withSuffixE a s => rfl

/-- C5 witness: the Join simplification applied at a concrete input. -/
theorem parent_create_spec_witness :
    ParentExpr.create (.join (.paramRef ⟨"p"⟩) (.literal (.str "a")))
      = PathExpr.paramRef ⟨"p"⟩ :=
  parent_create_spec.1 (.paramRef ⟨"p"⟩) (.literal (.str "a")) (by decide)

/-- C6 counterexample: the claim quantifies over every non-Literal `e`, but
for `e` itself a WithSuffix node the chain collapses into the base of `e`,
not onto `e`: with `e = WithSuffix(ParamRef(p), ".a")`, the chain
`e.with_suffix(".b").with_suffix(".c")` is `WithSuffix(ParamRef(p), ".c")`
and is not structurally `WithSuffix(e, ".c")`. -/
theorem suffix_chain_counterexample :
    ((do
        let e1 ← PathExpr.with_suffix (.withSuffixE (.paramRef ⟨"p"⟩) ".a") ".b"
        e1.with_suffix ".c")
      = Except.ok (PathExpr.withSuffixE (.paramRef ⟨"p"⟩) ".c"))
    ∧ ¬ ((do
        let e1 ← PathExpr.with_suffix (.withSuffixE (.paramRef ⟨"p"⟩) ".a") ".b"
        e1.with_suffix ".c")
      = Except.ok (.withSuffixE (.withSuffixE (.paramRef ⟨"p"⟩) ".a") ".c")) := by
  refine ⟨by decide, by decide⟩

/-- C6 amended: for every expression `e` that is neither a Literal nor
itself a WithSuffix, and all suffixes `s1, s2`,
`e.with_suffix(s1).with_suffix(s2)` is structurally `WithSuffix(e, s2)` —
only the final suffix survives; in particular for `e = root / "file.txt"`
the chain `.with_suffix(".tmp").with_suffix(".json")` resolves with
`root = "/x"` to `/x/file.json`. -/
theorem suffix_chain_collapse (e : PathExpr) (s1 s2 : String)
    (h1 : e.isLiteral = false) (h2 : e.isWithSuffix = false) :
    ((do
        let e1 ← e.with_suffix s1
        e1.with_suffix s2) = Except.ok (PathExpr.withSuffixE e s2))
    ∧ (PathExpr.withSuffixE ((Param.mk "root").divS "file.txt") ".json").resolve
        [("root", PyVal.str "/x")] = .ok (PyPath.parse "/x/file.json") := by
  refine ⟨?_, by decide⟩
  cases e with
  | literal v => simp [PathExpr.isLiteral] at h1
  | withSuffixE a s => simp [PathExpr.isWithSuffix] at h2
  | paramRef p => rfl
  | template t => rfl
  | join l r => rfl
  | parentOf c => rfl
  | withNameE a n => rfl

/-- C6 witness: the chain collapse on `root / "file.txt"`, which is a Join,
hence neither Literal nor WithSuffix. -/
theorem suffix_chain_collapse_witness :
    (do
        let e1 ← ((Param.mk "root").divS "file.txt").with_suffix ".tmp"
        e1.with_suffix ".json")
      = Except.ok (PathExpr.withSuffixE ((Param.mk "root").divS "file.txt") ".json") :=
  (suffix_chain_collapse ((Param.mk "root").divS "file.txt") ".tmp" ".json"
    (by decide) (by decide)).1

/-- C7: `required_params` is the structural fold — empty on Literal,
singleton on ParamRef, the Param names of the interpolations on Template
(non-Param interpolation values contributing nothing), and the union of the
children on the composite variants; in particular
`ParamRef(root) / "data" / ParamRef(dataset)` requires exactly
`{"root", "dataset"}`. -/
theorem required_params_fold :
    (∀ v, (PathExpr.literal v).required_params = ∅)
    ∧ (∀ p, (PathExpr.paramRef p).required_params = {p.name})
    ∧ (∀ items, (PathExpr.template items).required_params = templateParams items)
    ∧ (∀ s rest, templateParams (.str s :: rest) = templateParams rest)
    ∧ (∀ p spec rest, templateParams (.interp (.param p) spec :: rest)
        = insert p.name (templateParams rest))
    ∧ (∀ v spec rest, templateParams (.interp (.val v) spec :: rest)
        = templateParams rest)
    ∧ (∀ l r : PathExpr, (PathExpr.join l r).required_params
        = l.required_params ∪ r.required_params)
    ∧ (∀ c : PathExpr, (PathExpr.parentOf c).required_params = c.required_params)
    ∧ (∀ (a : PathExpr) (n : String), (a.with_name n).required_params
        = a.required_params)
    ∧ (∀ (a : PathExpr) (s : String), (PathExpr.withSuffixE a s).required_params
        = a.required_params)
    ∧ ((Param.mk "root").divS "data" |>.divP ⟨"dataset"⟩).required_params
        = {"root", "dataset"} :=
  ⟨fun _ => rfl, fun _ => rfl, fun _ => rfl, fun _ _ => rfl, fun _ _ _ => rfl,
    fun _ _ _ => rfl, fun _ _ => rfl, fun _ => rfl, fun _ _ => rfl,
    fun _ _ => rfl, by decide⟩

/-- C8 counterexample: `resolve` has a third failure kind beyond
MissingBindings and formatting pass-through — the path operations of
WithName/WithSuffix can raise ValueError at resolution time.
`P("/").with_name("x")` constructs fine (WithName has no smart constructor)
but resolving it fails because the root path has no final component. -/
theorem resolve_valueError_example :
    ((P "/").with_name "x").resolve []
      = .error (.valueError "path has an empty name") := by decide

/-- C8 amended: `e.resolve b` either succeeds or fails with one of exactly
four kinds — a MissingBindings error, a formatting failure passed through
from a Template interpolation, a ValueError from the WithName/WithSuffix
path operations, or a TypeError from coercing a non-string binding; in
particular a bindings-lookup KeyError can never escape `resolve`, because
the missing-bindings pre-check guarantees every required name is bound. -/
theorem resolve_failure_kinds (e : PathExpr) (b : Bindings) :
    (∃ p, e.resolve b = .ok p)
    ∨ (∃ s, e.resolve b = .error (.missingBindings s))
    ∨ (∃ m, e.resolve b = .error (.formatError m))
    ∨ (∃ m, e.resolve b = .error (.valueError m))
    ∨ (∃ m, e.resolve b = .error (.typeError m)) := by
  by_cases hm : e.required_params \ bindKeys b = ∅
  · cases h : e.resolveAux b with
    | ok p => exact Or.inl ⟨p, by rw [resolve_eq_resolveAux hm, h]⟩
    | error err =>
      rcases resolveAux_error_shape h with ⟨n, hn⟩ | ⟨m, hf⟩ | ⟨m, hv⟩ | ⟨m, ht⟩
      · subst hn
        exact absurd (by rw [resolve_eq_resolveAux hm, h])
          (resolve_no_keyError e b n)
      · exact Or.inr (Or.inr (Or.inl ⟨m, by rw [resolve_eq_resolveAux hm, h, hf]⟩))
      · exact Or.inr (Or.inr (Or.inr (Or.inl
          ⟨m, by rw [resolve_eq_resolveAux hm, h, hv]⟩)))
      · exact Or.inr (Or.inr (Or.inr (Or.inr
          ⟨m, by rw [resolve_eq_resolveAux hm, h, ht]⟩)))
  · exact Or.inr (Or.inl ⟨_, resolve_eq_missing hm⟩)

/-- C8 witness: the failure-kind classification at a concrete input. -/
theorem resolve_failure_kinds_witness :
    (∃ p, (P "a").resolve [] = .ok p)
    ∨ (∃ s, (P "a").resolve [] = .error (.missingBindings s))
    ∨ (∃ m, (P "a").resolve [] = .error (.formatError m))
    ∨ (∃ m, (P "a").resolve [] = .error (.valueError m))
    ∨ (∃ m, (P "a").resolve [] = .error (.typeError m)) :=
  resolve_failure_kinds (P "a") []

/-- C9: `rebase(new_base)` returns a RelativePath whose relative field is
the unchanged relative expression and whose base is the new base, leaving
the relative part's required parameters untouched; in particular
`RelativePath(ParamRef(root), P("config")/"settings.yaml")` rebased onto
`P("/tmp/test")` resolves with empty bindings to
`/tmp/test/config/settings.yaml`. -/
theorem rebase_spec :
    (∀ (r : RelativePath) (nb : PathExpr),
        (r.rebase nb).relative = r.relative
        ∧ (r.rebase nb).base = nb
        ∧ (r.rebase nb).relative.required_params = r.relative.required_params)
    ∧ ((RelativePath.mk (.paramRef ⟨"root"⟩)
          ((P "config").divS "settings.yaml")).rebase (P "/tmp/test")).resolve []
        = .ok (PyPath.parse "/tmp/test/config/settings.yaml") :=
  ⟨fun _ _ => ⟨rfl, rfl, rfl⟩, by decide⟩

/-- Helper for C10: `JoinExpr.create` preserves the reduced-form
invariant. -/
theorem reduced_join_create {a b : PathExpr} (ha : a.reduced = true)
    (hb : b.reduced = true) : (JoinExpr.create a b).reduced = true := by
  cases a <;> cases b <;>
    simp_all [JoinExpr.create, PathExpr.reduced, PathExpr.isLiteral]

/-- Helper for C10: `ParentExpr.create` preserves the reduced-form
invariant. -/
theorem reduced_parent_create {c : PathExpr} (hc : c.reduced = true) :
    (ParentExpr.create c).reduced = true := by
  cases c with
  | literal v => rfl
  | paramRef p => simp_all [ParentExpr.create, PathExpr.reduced,
      PathExpr.isLiteral, PathExpr.isJoinAtomicRight]
  | template t => simp_all [ParentExpr.create, PathExpr.reduced,
      PathExpr.isLiteral, PathExpr.isJoinAtomicRight]
  | join l r =>
    cases r <;>
      simp_all [ParentExpr.create, PathExpr.reduced, PathExpr.isLiteral,
        PathExpr.isAtomic, PathExpr.isJoinAtomicRight]
  | parentOf a => simp_all [ParentExpr.create, PathExpr.reduced,
      PathExpr.isLiteral, PathExpr.isJoinAtomicRight]
  | withNameE a n => simp_all [ParentExpr.create, PathExpr.reduced,
      PathExpr.isLiteral, PathExpr.isJoinAtomicRight]
  | withSuffixE a s => simp_all [ParentExpr.create, PathExpr.reduced,
      PathExpr.isLiteral, PathExpr.isJoinAtomicRight]

/-- Helper for C10: a successful `WithSuffixExpr.create` preserves the
reduced-form invariant. -/
theorem reduced_withSuffix_create {a e : PathExpr} {s : String}
    (ha : a.reduced = true) (h : WithSuffixExpr.create a s = .ok e) :
    e.reduced = true := by
  cases a with
  | withSuffixE b s0 =>
    simp only [WithSuffixExpr.create, Except.ok.injEq] at h
    subst h
    simp_all [PathExpr.reduced]
  | literal v =>
    cases hw : v.toPath.withSuffix s with
    | ok p =>
      simp only [WithSuffixExpr.create, hw, Except.ok.injEq] at h
      subst h
      rfl
    | error msg => simp [WithSuffixExpr.create, hw] at h
  | paramRef p =>
    simp only [WithSuffixExpr.create, Except.ok.injEq] at h
    subst h
    simp_all [PathExpr.reduced, PathExpr.isLiteral, PathExpr.isWithSuffix]
  | template t =>
    simp only [WithSuffixExpr.create, Except.ok.injEq] at h
    subst h
    simp_all [PathExpr.reduced, PathExpr.isLiteral, PathExpr.isWithSuffix]
  | join l r =>
    simp only [WithSuffixExpr.create, Except.ok.injEq] at h
    subst h
    simp_all [PathExpr.reduced, PathExpr.isLiteral, PathExpr.isWithSuffix]
  | parentOf c =>
    simp only [WithSuffixExpr.create, Except.ok.injEq] at h
    subst h
    simp_all [PathExpr.reduced, PathExpr.isLiteral, PathExpr.isWithSuffix]
  | withNameE a0 n =>
    simp only [WithSuffixExpr.create, Except.ok.injEq] at h
    subst h
    simp_all [PathExpr.reduced, PathExpr.isLiteral, PathExpr.isWithSuffix]

/-- C10: every expression reachable through the public construction surface
(literal/template constructors, parameter references, the join operator in
all overloads, `.parent`, `.with_name`, `.with_suffix`) satisfies the
canonical reduced-form invariant: a Join never has two Literal children, a
Parent never wraps a bare Literal nor a Join with an atomic right child, and
a WithSuffix never has another WithSuffix nor a bare Literal as its base. -/
theorem constructed_reduced {e : PathExpr} (h : Constructed e) :
    e.reduced = true := by
  induction h with
  | lit s => rfl
  | pref p => rfl
  | templ items => rfl
  | joinE ha hb iha ihb => exact reduced_join_create iha ihb
  | joinS s ha iha => exact reduced_join_create iha rfl
  | joinP p ha iha => exact reduced_join_create iha rfl
  | rjoinS s ha iha => exact reduced_join_create rfl iha
  | par ha iha => exact reduced_parent_create iha
  | named n ha iha => exact iha
  | suffixed s ha hok iha => exact reduced_withSuffix_create iha hok

/-- C10 witness: a concrete expression built through the public operators is
in reduced form. -/
theorem constructed_reduced_witness :
    (((Param.mk "root").divS "a").divS "b").parent.reduced = true :=
  constructed_reduced
    (Constructed.par (Constructed.joinS "b"
      (Constructed.joinS "a" (Constructed.pref ⟨"root"⟩))))

end Wend
